import Mathlib

/-!
Shallow embedding of the ViralScope/Browser-History plugin core
(src/plugin/browsers.py, src/plugin/main.py, src/plugin/favicon.py)
and verification of the frozen claims about it.

Conventions of the embedding:
* Python strings are Lean `String`; `str.lower` is modelled for its ASCII
  action, which is the fragment the claims exercise.
* Python exceptions are modelled with `Except PyErr`.
* Filesystem and network effects are modelled by explicit state records and
  environment records of functions; a counter records how many network
  requests a call performs.
* Python's true division `/` on integers yields a float; it is modelled
  exactly with `Rat` (the rounding of IEEE floats is irrelevant here because
  every claim that touches the value is decided before the value is used).
-/

/-! ## Python string primitives -/

/-- Python whitespace for `str.strip()` (ASCII fragment: space, tab, newline,
carriage return, vertical tab, form feed). -/
def pyIsSpace (c : Char) : Bool :=
  c = ' ' || c = '\t' || c = '\n' || c = '\r' || c = '\x0b' || c = '\x0c'

/-- Python `s.strip()` with no argument: remove leading and trailing
whitespace. -/
def pyStrip (s : String) : String :=
  String.mk (((s.data.dropWhile pyIsSpace).reverse.dropWhile pyIsSpace).reverse)

/-- Auxiliary for the Python substring operator: does `needle` occur as a
contiguous sublist of the second argument? -/
def listContainsSub (needle : List Char) : List Char → Bool
  | [] => needle.isEmpty
  | c :: rest => needle.isPrefixOf (c :: rest) || listContainsSub needle rest

/-- Python's `needle in haystack` on strings: contiguous substring test
(the empty needle is contained in every string). -/
def pyIn (needle haystack : String) : Bool :=
  listContainsSub needle.data haystack.data

/-- Python `str.lower` (ASCII action, which is what the matching in
`main.py` relies on). -/
def pyLower (s : String) : String :=
  String.mk (s.data.map Char.toLower)

/-! ## browsers.py: data model -/

/-- The browser adapters registered in `browsers.get` (one class each in
browsers.py); `Zen` subclasses `Firefox`. -/
inductive Family where
  | chrome | firefox | edge | brave | opera | vivaldi | arc | zen
deriving DecidableEq, Repr

/-- The Chromium-family classes, mirroring the tuple
`chromium_browsers = (Chrome, Edge, Brave, Opera, Vivaldi, Arc)` in
`HistoryItem.timestamp`. -/
def chromiumBrowsers : List Family :=
  [.chrome, .edge, .brave, .opera, .vivaldi, .arc]

/-- The Firefox-family classes, mirroring
`firefox_browsers = (Firefox, Zen)` in `HistoryItem.timestamp`. -/
def firefoxBrowsers : List Family :=
  [.firefox, .zen]

/-- One raw row as returned by the history SQL query:
`(url, title, last_visit_time)` for the Chromium query,
`(url, title, visit_date)` for the Gecko join — same shape either way. -/
structure Row where
  url : String
  title : String
  last_visit_time : Int
deriving DecidableEq, Repr

/-- `HistoryItem` of browsers.py after `__init__` ran. -/
structure HistoryItem where
  browser : Family
  url : String
  title : String
  last_visit_time : Int
deriving DecidableEq, Repr

/-- `HistoryItem.__init__`: the title falls back to the url when the source
title is falsy (`not title`) or strips to nothing (`not title.strip()`);
the url is stored unchanged. -/
def mkHistoryItem (browser : Family) (url title : String) (last_visit_time : Int) : HistoryItem :=
  { browser := browser
    url := url
    title := if title = "" || pyStrip title = "" then url else title
    last_visit_time := last_visit_time }

/-! ## browsers.py: timestamp decoding -/

/-- Python runtime values passed positionally to `datetime(...)` in
`HistoryItem.timestamp`. -/
inductive PyVal where
  | vint (n : Int)
  | vfloat (q : Rat)
  | vstr (s : String)
deriving DecidableEq, Repr

/-- Python exceptions raised by the embedded code paths. -/
inductive PyErr where
  | typeError
  | valueError
  | fileNotFound
deriving DecidableEq, Repr

/-- Decidable equality for `Except`, so that concrete runs of the embedded
fallible operations can be checked by evaluation. -/
instance exceptDecEq {ε α : Type} [DecidableEq ε] [DecidableEq α] :
    DecidableEq (Except ε α) := fun a b =>
  match a, b with
  | .ok x, .ok y =>
      if h : x = y then .isTrue (congrArg Except.ok h)
      else .isFalse (fun hh => h (Except.ok.inj hh))
  | .ok _, .error _ => .isFalse (fun hh => Except.noConfusion hh)
  | .error _, .ok _ => .isFalse (fun hh => Except.noConfusion hh)
  | .error x, .error y =>
      if h : x = y then .isTrue (congrArg Except.error h)
      else .isFalse (fun hh => h (Except.error.inj hh))

/-- Result of a successful datetime construction: either a calendar value
built from integer fields, or the value `datetime.fromtimestamp` produces
from a Unix-seconds float (kept symbolically; the claims never inspect the
calendar fields of a successful result). -/
inductive PyDatetime where
  | ymd (year month day : Int)
  | fromUnixLocal (seconds : Rat)
deriving DecidableEq, Repr

/-- `datetime.datetime(year, month, day)` with three positional arguments:
each argument must be a Python `int` (a `float` or `str` raises
`TypeError`); integer fields out of range raise `ValueError` (the range
check on `day` is coarsened to 1..31, which no claim distinguishes). -/
def datetimeCtor3 (year month day : PyVal) : Except PyErr PyDatetime :=
  match year, month, day with
  | .vint y, .vint m, .vint d =>
      if 1 ≤ y ∧ y ≤ 9999 ∧ 1 ≤ m ∧ m ≤ 12 ∧ 1 ≤ d ∧ d ≤ 31 then
        .ok (.ymd y m d)
      else
        .error .valueError
  | _, _, _ => .error .typeError

/-- `datetime.fromtimestamp(secs)`: local-time calendar value for a
Unix-seconds float, kept symbolically. -/
def datetimeFromtimestamp (seconds : Rat) : Except PyErr PyDatetime :=
  .ok (.fromUnixLocal seconds)

/-- `HistoryItem.timestamp` of browsers.py, line for line: the Chromium
branch evaluates `datetime((self.last_visit_time/1000000)-11644473600,
'unixepoch', 'localtime')` — Python's `datetime` constructor applied to a
float and two strings; the Firefox branch and the unknown-family fallback
evaluate `datetime.fromtimestamp(self.last_visit_time / 1000000.0)`. -/
def HistoryItem.timestamp (item : HistoryItem) : Except PyErr PyDatetime :=
  if item.browser ∈ chromiumBrowsers then
    datetimeCtor3 (.vfloat ((item.last_visit_time : Rat) / 1000000 - 11644473600))
      (.vstr "unixepoch") (.vstr "localtime")
  else if item.browser ∈ firefoxBrowsers then
    datetimeFromtimestamp ((item.last_visit_time : Rat) / 1000000)
  else
    datetimeFromtimestamp ((item.last_visit_time : Rat) / 1000000)

/-! ## browsers.py: Base.query_history and the temporary copy -/

/-- The source history database: whether the file exists at its path, and
the rows its main table yields for the adapter's SELECT (before the
`ORDER BY`/`LIMIT` applied below). -/
structure SourceDb where
  present : Bool
  rows : List Row
deriving DecidableEq, Repr

/-- The state `Base` carries across `query_history`: the `temp_path`
attribute, `some p` exactly when a temporary copy file exists at `p`. -/
structure ReaderState where
  temp_path : Option String
deriving DecidableEq, Repr

/-- `Base._copy_database`: `shutil.copy` raises `FileNotFoundError` when the
source path does not exist — before creating anything in the temp
directory, so `temp_path` is only set on success. -/
def copy_database (db : SourceDb) (st : ReaderState) :
    Except PyErr String × ReaderState :=
  if db.present then
    (.ok "/tmp/History", { st with temp_path := some "/tmp/History" })
  else
    (.error .fileNotFound, st)

/-- The `ORDER BY last_visit_time DESC` (resp. `visit_date DESC`) of the
adapters' queries: the rows sorted by visit time, newest first (SQLite
fixes no order among equal keys; the claims depend only on the length and
membership of the result, which any sort gives identically). -/
def sortRowsDesc (rows : List Row) : List Row :=
  rows.insertionSort (fun a b => b.last_visit_time ≤ a.last_visit_time)

/-- `Base.query_history`: copy the database, open the copy, run the query
with `LIMIT {limit}` appended, return the fetched rows; the connection is
closed either way (connection lifetime is not otherwise observable to the
claims). -/
def query_history (db : SourceDb) (limit : Nat) (st : ReaderState) :
    Except PyErr (List Row) × ReaderState :=
  match copy_database db st with
  | (.error e, st') => (.error e, st')
  | (.ok _, st') => (.ok ((sortRowsDesc db.rows).take limit), st')

/-- `Base.__del__`: remove the temporary copy if one was recorded,
swallowing deletion errors. -/
def readerDel (st : ReaderState) : ReaderState :=
  { st with temp_path := none }

/-- `Base.get_history_items`: wrap each raw row in a `HistoryItem`. -/
def get_history_items (fam : Family) (results : List Row) : List HistoryItem :=
  results.map (fun r => mkHistoryItem fam r.url r.title r.last_visit_time)

/-- `<Browser>.history(limit)`: `query_history` on the family's database
followed by `get_history_items` (every adapter class in browsers.py has
this same body; only the SQL text, i.e. which rows `db.rows` holds,
differs). -/
def historyCall (fam : Family) (db : SourceDb) (limit : Nat) (st : ReaderState) :
    Except PyErr (List HistoryItem) × ReaderState :=
  match query_history db limit st with
  | (.error e, st') => (.error e, st')
  | (.ok rows, st') => (.ok (get_history_items fam rows), st')

/-! ## browsers.py: Firefox.find_database -/

/-- The profile-name patterns of `Firefox.find_database`, in the order the
code tries them. -/
def profilePatterns : List String :=
  ["*.default-release", "*Default (release)", "*.default", "*Default Profile"]

/-- `fnmatch`-style matching for the wildcard `*` (the only metacharacter
occurring in the glob patterns of the source); `*` matches any, possibly
empty, sequence of characters, a leading dot included: the pattern `*`
followed by `ps` matches a name exactly when `ps` matches one of the
name's suffixes. -/
def fnmatchStar : List Char → List Char → Bool
  | [], name => name.isEmpty
  | '*' :: ps, name => name.tails.any (fun suffix => fnmatchStar ps suffix)
  | _ :: _, [] => false
  | p :: ps, c :: ns => p == c && fnmatchStar ps ns

/-- `pathlib` join of one further component, for component strings as
pathlib itself produces them (normalized, no trailing slash): an absolute
second component discards the first; otherwise the parts are joined with a
separator. -/
def pathJoin (a b : String) : String :=
  if b.data.headD ' ' = '/' then b
  else if a.data = [] then b
  else a ++ "/" ++ b

/-- The name selected by the loop of `Firefox.find_database`: for each
pattern in order, `next(Path(path).glob(pattern), None)` — the first entry
of the directory (scanned in directory order `entries`) whose name the
pattern matches. -/
def firstMatchingProfile (entries : List String) : Option String :=
  profilePatterns.findSome? (fun pat =>
    entries.find? (fun e => fnmatchStar pat.data e.data))

/-- `Firefox.find_database(path)`: on the first glob match (a full path:
`release_folder = path ⧸ name`, since `Path.glob` yields root-joined
entries) return `Path(path, release_folder, 'places.sqlite')`; if no
pattern matches, raise `FileNotFoundError` whose message carries the
searched root path. -/
def find_database (path : String) (entries : List String) :
    Except String String :=
  match firstMatchingProfile entries with
  | some name =>
      .ok (pathJoin (pathJoin path (pathJoin path name)) "places.sqlite")
  | none => .error ("No Firefox/Zen profile found in " ++ path)

/-! ## favicon.py: FaviconCache -/

/-- Characters that terminate the netloc component in `urlparse`. -/
def isNetlocEnd (c : Char) : Bool :=
  c = '/' || c = '?' || c = '#'

/-- A character allowed inside a URL scheme after the first letter. -/
def isSchemeChar (c : Char) : Bool :=
  c.isAlphanum || c = '+' || c = '-' || c = '.'

/-- Drop a leading `scheme:` from a URL if a syntactically valid scheme is
present, as `urllib.parse.urlparse` does. -/
def dropScheme (url : List Char) : List Char :=
  match url.findIdx? (· = ':') with
  | none => url
  | some i =>
      let scheme := url.take i
      if 0 < i ∧ (scheme.headD ' ').isAlpha ∧ scheme.all isSchemeChar then
        url.drop (i + 1)
      else
        url

/-- Model of `urllib.parse.urlparse(url)` restricted to the two fields
`_get_domain` reads: `(netloc, path)`. The netloc is nonempty only when the
remainder after the scheme starts with `//`, and extends to the next
`/`, `?` or `#`; the path is what follows, up to `?` or `#`. -/
def urlparseNetlocPath (url : String) : String × String :=
  let rest := dropScheme url.data
  if rest.take 2 = ['/', '/'] then
    let after := rest.drop 2
    let netloc := after.takeWhile (fun c => !isNetlocEnd c)
    let path := (after.dropWhile (fun c => !isNetlocEnd c)).takeWhile
      (fun c => c ≠ '?' ∧ c ≠ '#')
    (String.mk netloc, String.mk path)
  else
    (String.mk [], String.mk (rest.takeWhile (fun c => c ≠ '?' ∧ c ≠ '#')))

/-- The `domain.removeprefix('www.')` step of `_get_domain`: drop a leading
`www.` when present. -/
def removeWww (s : String) : String :=
  if "www.".data.isPrefixOf s.data then String.mk (s.data.drop 4) else s

/-- Python `path.split('/')[0]`: the characters before the first slash
(`split` always yields a nonempty list, whose first element this is). -/
def firstSlashSegment (s : String) : String :=
  String.mk (s.data.takeWhile (fun c => c ≠ '/'))

/-- `FaviconCache._get_domain`: netloc, or the first path segment when the
netloc is empty, with a leading `www.` stripped. (`urlparse` only raises on
malformed IPv6 bracket hosts, which the model's parser never produces, so
the `except` branch that returns `None` is not reachable here; a falsy —
empty — domain plays that role, exactly as `get_favicon_path` tests it.) -/
def get_domain (url : String) : String :=
  let parsed := urlparseNetlocPath url
  let domain := if parsed.1 ≠ "" then parsed.1 else firstSlashSegment parsed.2
  removeWww domain

/-- `FaviconCache._sanitize_filename`: replace `:`, `/` and `\` by `_`
(three single-character `str.replace` passes, i.e. one map over the
characters, since `_` is replaced no further). -/
def sanitize_filename (domain : String) : String :=
  String.mk (domain.data.map (fun c =>
    if c = ':' || c = '/' || c = '\\' then '_' else c))

/-- The environment `get_favicon_path` runs against: what the favicon
service returns for a domain (`none` = network/timeout failure), and
whether writing a given cache file name fails. -/
structure FavEnv where
  net : String → Option String
  writeFails : String → Bool

/-- The observable filesystem state of the favicon cache plus a counter of
network requests performed: `cacheFiles` are the file names inside the
cache directory (directory order), `otherFiles` stand for every file
outside the cache directory. -/
structure FavState where
  cacheFiles : List String
  otherFiles : List String
  netCalls : Nat
deriving DecidableEq, Repr

/-- The cache directory path used in returned favicon paths
(`favicon_path.as_posix()`). -/
def cacheDirPath : String := "favicons"

/-- `FaviconCache.get_favicon_path(url)`: resolve the domain (falsy domain
⇒ `None`); if `cacheDir/<sanitized>.png` exists return its path with no
download; otherwise perform exactly one download and, on success, write the
file and return its path; any download or write failure returns `None`
without recording the miss. -/
def get_favicon_path (env : FavEnv) (st : FavState) (url : String) :
    Option String × FavState :=
  let domain := get_domain url
  if domain = "" then (none, st)
  else
    let safe_domain := sanitize_filename domain
    let fname := safe_domain ++ ".png"
    if fname ∈ st.cacheFiles then
      (some (cacheDirPath ++ "/" ++ fname), st)
    else
      match env.net domain with
      | none => (none, { st with netCalls := st.netCalls + 1 })
      | some _data =>
          if env.writeFails fname then
            (none, { st with netCalls := st.netCalls + 1 })
          else
            (some (cacheDirPath ++ "/" ++ fname),
             { st with cacheFiles := fname :: st.cacheFiles,
                       netCalls := st.netCalls + 1 })

/-- The files `unlink` succeeds on before the loop in `clear_cache` stops:
the prefix of the glob matches up to (excluding) the first file whose
deletion raises — the `try/except` wraps the whole `for` loop, so the first
`OSError` ends the iteration. -/
def deletedByClear (unlinkFails : String → Bool) : List String → List String
  | [] => []
  | f :: rest =>
      if unlinkFails f then [] else f :: deletedByClear unlinkFails rest

/-- `FaviconCache.clear_cache`: glob `*.png` in the cache directory
(directory order), unlink each match until the first failure (whose
exception is caught, and logged, outside the loop). Files outside the
cache directory are not touched. -/
def clear_cache (unlinkFails : String → Bool) (st : FavState) : FavState :=
  let matched := st.cacheFiles.filter (fun f => fnmatchStar "*.png".data f.data)
  let deleted := deletedByClear unlinkFails matched
  { st with cacheFiles := st.cacheFiles.filter (fun f => decide (f ∉ deleted)) }

/-! ## main.py: BrowserHistory.query -/

/-- One result record added by `BrowserHistory.query` via `add_item`
(title, the `f"{idx}. {item.url}"` subtitle, and the url action payload;
the icon choice only repeats the favicon-cache result and is settled by the
favicon theorems). -/
structure ResultItem where
  title : String
  subtitle : String
  urlParam : String
deriving DecidableEq, Repr

/-- The match test of `BrowserHistory.query`:
`query_lower in item.title.lower() or query_lower in item.url.lower()`. -/
def queryMatches (q : String) (item : HistoryItem) : Bool :=
  pyIn (pyLower q) (pyLower item.title) || pyIn (pyLower q) (pyLower item.url)

/-- The items `BrowserHistory.query` adds, given the list fetched by
`self.browser.history(limit=10000)`: enumerate, keep the matches, and build
one record per match with the enumeration index in the subtitle. -/
def queryAdded (q : String) (hist : List HistoryItem) : List ResultItem :=
  (hist.enum.filter (fun p => queryMatches q p.2)).map
    (fun p => ⟨p.2.title, toString p.1 ++ ". " ++ p.2.url, p.2.url⟩)

/-- `BrowserHistory.query` end to end: fetch `history(limit=10000)` from
the adapter (a fresh reader, so `temp_path` starts unset), then filter and
render; an adapter error propagates (caught further out in `_query`). -/
def queryFromDb (fam : Family) (db : SourceDb) (q : String) :
    Except PyErr (List ResultItem) :=
  match historyCall fam db 10000 ⟨none⟩ with
  | (.error e, _) => .error e
  | (.ok items, _) => .ok (queryAdded q items)

/-! ## Helper lemmas -/

/-- `str.strip()` yields the empty string exactly when every character of
the string is whitespace (in particular on the empty string). -/
theorem pyStrip_eq_empty_iff (s : String) :
    pyStrip s = "" ↔ s.data.all pyIsSpace = true := by
  constructor
  · intro h
    have hl : ((s.data.dropWhile pyIsSpace).reverse.dropWhile pyIsSpace).reverse = [] := by
      have := congrArg String.data h
      simpa [pyStrip] using this
    rw [List.reverse_eq_nil_iff, List.dropWhile_eq_nil_iff] at hl
    rw [List.all_eq_true]
    intro x hx
    by_contra hpx
    have hxdrop : x ∈ s.data.dropWhile pyIsSpace := by
      have hsplit := List.takeWhile_append_dropWhile (p := pyIsSpace) (l := s.data)
      rw [← hsplit] at hx
      rcases List.mem_append.1 hx with htk | hdr
      · exact absurd (List.mem_takeWhile_imp htk) hpx
      · exact hdr
    exact hpx (hl x (List.mem_reverse.2 hxdrop))
  · intro h
    have h1 : s.data.dropWhile pyIsSpace = [] :=
      List.dropWhile_eq_nil_iff.2 (fun x hx => List.all_eq_true.1 h x hx)
    simp [pyStrip, h1]

/-- The rows `query_history` returns are truncated by the SQL `LIMIT`
clause: an `ok` result of `historyCall` never has more than `limit`
entries. -/
theorem historyCall_ok_length {fam : Family} {db : SourceDb} {limit : Nat}
    {st st' : ReaderState} {items : List HistoryItem}
    (h : historyCall fam db limit st = (.ok items, st')) :
    items.length ≤ limit := by
  by_cases hp : db.present
  · simp [historyCall, query_history, copy_database, hp] at h
    obtain ⟨h1, -⟩ := h
    calc items.length = (get_history_items fam ((sortRowsDesc db.rows).take limit)).length := by
          rw [h1]
      _ ≤ limit := by
          simp [get_history_items, List.length_take]
  · simp [historyCall, query_history, copy_database, hp] at h

/-- Filtering an enumerated list on a predicate of the element and then
projecting the element commutes with filtering the plain list: the
enumeration index decorates but never influences which elements survive. -/
theorem enumFrom_filter_map {α β : Type} (pred : α → Bool) (f : α → β) :
    ∀ (n : Nat) (l : List α),
      ((List.enumFrom n l).filter (fun p => pred p.2)).map (fun p => f p.2)
        = (l.filter pred).map f := by
  intro n l
  induction l generalizing n with
  | nil => simp
  | cons a as ih =>
      by_cases h : pred a
      · simp [List.enumFrom_cons, List.filter_cons, h, ih]
      · simp [List.enumFrom_cons, List.filter_cons, h, ih]

/-- Whatever the loop in `clear_cache` managed to unlink was among the glob
matches it iterated over. -/
theorem mem_deletedByClear {u : String → Bool} :
    ∀ {l : List String} {f : String}, f ∈ deletedByClear u l → f ∈ l := by
  intro l
  induction l with
  | nil =>
      intro f h
      simp [deletedByClear] at h
  | cons a as ih =>
      intro f h
      by_cases hu : u a = true
      · simp [deletedByClear, hu] at h
      · simp only [deletedByClear, if_neg hu] at h
        rcases List.mem_cons.1 h with rfl | h2
        · exact List.mem_cons_self _ _
        · exact List.mem_cons_of_mem _ (ih h2)

/-- When no unlink fails, the loop in `clear_cache` unlinks every glob
match. -/
theorem deletedByClear_eq_self {u : String → Bool} :
    ∀ {l : List String}, (∀ f ∈ l, u f = false) → deletedByClear u l = l := by
  intro l
  induction l with
  | nil =>
      intro _
      rfl
  | cons a as ih =>
      intro h
      have ha : u a = false := h a (List.mem_cons_self a as)
      simp only [deletedByClear]
      rw [if_neg (by simp [ha]), ih (fun f hf => h f (List.mem_cons_of_mem a hf))]

/-- `pathlib` join: an absolute second component discards the first. -/
theorem pathJoin_abs {a b : String} (hb : b.data.headD ' ' = '/') :
    pathJoin a b = b := by
  unfold pathJoin
  rw [if_pos hb]

/-- `pathlib` join of a relative component onto a nonempty path inserts a
separator. -/
theorem pathJoin_rel {a b : String} (ha : a.data ≠ []) (hb : b.data.headD ' ' ≠ '/') :
    pathJoin a b = a ++ "/" ++ b := by
  unfold pathJoin
  rw [if_neg hb, if_neg ha]

/-! ## The claims -/

/-- C1: the spec says a Chromium-family `timestamp()` returns the calendar
time for `unixSeconds = storedValue/1_000_000 - 11644473600` in the local
zone, without raising. The code instead passes the SQLite SQL-function
arguments `(<float>, 'unixepoch', 'localtime')` to Python's `datetime`
constructor, whose year/month/day arguments must be integers: every
Chromium-family `timestamp()` call raises `TypeError`. -/
theorem C1_chromium_timestamp_raises (b : Family) (hb : b ∈ chromiumBrowsers)
    (url title : String) (t : Int) :
    (mkHistoryItem b url title t).timestamp = .error .typeError := by
  simp [HistoryItem.timestamp, mkHistoryItem, hb, datetimeCtor3]

/-- C1 witness: the spec's concrete Chromium row, whose stored value
13300000000000000 should decode to Unix seconds 1655526400, raises
`TypeError` instead. -/
theorem C1_chromium_timestamp_raises_witness :
    (mkHistoryItem .chrome "https://example.com/page" "" 13300000000000000).timestamp
        = .error .typeError
    ∧ (13300000000000000 : Int) / 1000000 - 11644473600 = 1655526400 :=
  ⟨C1_chromium_timestamp_raises .chrome (by decide) "https://example.com/page" ""
      13300000000000000,
    by decide⟩

/-- C6: on a nonexistent source database, `query_history` raises
`FileNotFoundError` (the error `main.py` surfaces as "History not found")
out of `shutil.copy` before any temporary copy exists, and the reader state
is exactly as before — in particular no temporary copy file is left
behind. -/
theorem C6_missing_database (db : SourceDb) (limit : Nat) (st : ReaderState)
    (h : db.present = false) :
    query_history db limit st = (.error .fileNotFound, st) := by
  simp [query_history, copy_database, h]

/-- C6 witness: a reader with no temporary file, pointed at a missing
database, errors and still has no temporary file. -/
theorem C6_missing_database_witness :
    query_history ⟨false, []⟩ 10 ⟨none⟩ = (.error .fileNotFound, ⟨none⟩) :=
  C6_missing_database ⟨false, []⟩ 10 ⟨none⟩ rfl

/-- C8: a constructed history entry's title equals the url exactly when the
source title is empty or all-whitespace, and equals the source title
otherwise; the url is stored unchanged. -/
theorem C8_title_fallback (fam : Family) (url title : String) (t : Int) :
    (mkHistoryItem fam url title t).title
        = (if title.data.all pyIsSpace then url else title)
    ∧ (mkHistoryItem fam url title t).url = url := by
  refine ⟨?_, rfl⟩
  by_cases h : title.data.all pyIsSpace = true
  · rw [if_pos h]
    have hs : pyStrip title = "" := (pyStrip_eq_empty_iff title).2 h
    simp [mkHistoryItem, hs]
  · rw [if_neg (by simpa using h)]
    have hs : ¬ pyStrip title = "" := fun hc => h ((pyStrip_eq_empty_iff title).1 hc)
    have ht : ¬ title = "" := by
      intro hc
      subst hc
      exact h rfl
    simp [mkHistoryItem, hs, ht]

/-- C9: a URL whose extracted domain is falsy (the unparsable case, e.g.
the empty string) makes `get_favicon_path` return `None` with the cache
state untouched: no download is attempted and no file is written. -/
theorem C9_unparsable_url (env : FavEnv) (st : FavState) (url : String)
    (h : get_domain url = "") :
    get_favicon_path env st url = (none, st) := by
  simp [get_favicon_path, h]

/-- C9 witness: the empty string resolves to no image, without touching the
network counter or the cache directory, even with a working network. -/
theorem C9_unparsable_url_witness :
    get_favicon_path ⟨fun _ => some "img", fun _ => false⟩ ⟨[], [], 0⟩ ""
      = (none, ⟨[], [], 0⟩) :=
  C9_unparsable_url ⟨fun _ => some "img", fun _ => false⟩ ⟨[], [], 0⟩ "" (by decide)

/-- C2 counterexample: no 10,000 cap is enforced by the adapter. A caller
requesting limit 10001 against a database of 10001 rows receives all 10001
entries — more than the claimed hard cap. (The 10,000 figure is merely the
limit `main.py` happens to pass.) -/
theorem C2_no_cap_counterexample :
    (historyCall .chrome ⟨true, List.replicate 10001 ⟨"u", "t", 0⟩⟩ 10001 ⟨none⟩).1.map
        List.length = .ok 10001
    ∧ 10001 > 10000 := by
  constructor
  · simp only [historyCall, query_history, copy_database, if_true, Except.map,
      get_history_items, List.length_map, List.length_take, sortRowsDesc,
      List.length_insertionSort, List.length_replicate]
    norm_num
  · decide

/-- C2 amended: for every browser adapter and requested limit `n`,
`history(n)` returns at most `n` entries (the SQL `LIMIT` clause truncates
the result); no further 10,000 cap exists in the adapter — the 10,000
bound observed in practice is the limit the caller in `main.py` passes. -/
theorem C2_history_at_most_limit (fam : Family) (db : SourceDb) (limit : Nat)
    (st st' : ReaderState) (items : List HistoryItem)
    (h : historyCall fam db limit st = (.ok items, st')) :
    items.length ≤ limit :=
  historyCall_ok_length h

/-- C2 witness: a one-row database queried with limit 10 yields at most 10
entries. -/
theorem C2_history_at_most_limit_witness :
    (get_history_items .chrome [⟨"u", "t", 5⟩]).length ≤ 10 :=
  C2_history_at_most_limit .chrome ⟨true, [⟨"u", "t", 5⟩]⟩ 10 ⟨none⟩
    ⟨some "/tmp/History"⟩ (get_history_items .chrome [⟨"u", "t", 5⟩]) (by decide)

/-- C3: `BrowserHistory.query` renders exactly the fetched entries whose
lower-cased title or url contains the lower-cased query text, in the
original recency order (witnessed by the url payloads and titles of the
produced records being the projections of the filtered entry list), and
returns no more records than were fetched — hence, end to end, never more
than the fetch limit 10000, since matching runs only over the fetched
entries. -/
theorem C3_search_characterization (q : String) (hist : List HistoryItem)
    (fam : Family) (db : SourceDb) :
    ((queryAdded q hist).map ResultItem.urlParam
        = (hist.filter (queryMatches q)).map HistoryItem.url)
    ∧ ((queryAdded q hist).map ResultItem.title
        = (hist.filter (queryMatches q)).map HistoryItem.title)
    ∧ (queryAdded q hist).length ≤ hist.length
    ∧ (∀ res, queryFromDb fam db q = .ok res → res.length ≤ 10000) := by
  have hurl : (queryAdded q hist).map ResultItem.urlParam
      = (hist.filter (queryMatches q)).map HistoryItem.url := by
    simp only [queryAdded, List.map_map, List.enum]
    exact enumFrom_filter_map (queryMatches q) HistoryItem.url 0 hist
  have htitle : (queryAdded q hist).map ResultItem.title
      = (hist.filter (queryMatches q)).map HistoryItem.title := by
    simp only [queryAdded, List.map_map, List.enum]
    exact enumFrom_filter_map (queryMatches q) HistoryItem.title 0 hist
  have hlen : ∀ hist' : List HistoryItem,
      (queryAdded q hist').length ≤ hist'.length := by
    intro hist'
    have h1 : (queryAdded q hist').length
        = ((queryAdded q hist').map ResultItem.urlParam).length :=
      (List.length_map _ _).symm
    rw [h1]
    have h2 : ((queryAdded q hist').map ResultItem.urlParam).length
        = ((hist'.filter (queryMatches q)).map HistoryItem.url).length := by
      rw [show (queryAdded q hist').map ResultItem.urlParam
          = (hist'.filter (queryMatches q)).map HistoryItem.url by
        simp only [queryAdded, List.map_map, List.enum]
        exact enumFrom_filter_map (queryMatches q) HistoryItem.url 0 hist']
    rw [h2, List.length_map]
    exact List.length_filter_le _ _
  refine ⟨hurl, htitle, hlen hist, ?_⟩
  intro res hres
  unfold queryFromDb at hres
  cases hhist : historyCall fam db 10000 ⟨none⟩ with
  | mk e st' =>
      rw [hhist] at hres
      cases e with
      | error err => simp at hres
      | ok items =>
          simp at hres
          rw [← hres]
          exact le_trans (hlen items) (historyCall_ok_length hhist)

/-- C3 witness: one matching and one non-matching entry; the query returns
exactly the matching one and its end-to-end count is within the fetch
limit. -/
theorem C3_search_characterization_witness :
    (queryAdded "ex" (get_history_items .chrome
        [⟨"https://example.com/a", "Example", 5⟩, ⟨"https://other.org/b", "Other", 4⟩])).length
      ≤ 10000 :=
  (C3_search_characterization "ex"
      (get_history_items .chrome
        [⟨"https://example.com/a", "Example", 5⟩, ⟨"https://other.org/b", "Other", 4⟩])
      .chrome ⟨true, [⟨"https://example.com/a", "Example", 5⟩, ⟨"https://other.org/b", "Other", 4⟩]⟩).2.2.2
    (queryAdded "ex" (get_history_items .chrome
        [⟨"https://example.com/a", "Example", 5⟩, ⟨"https://other.org/b", "Other", 4⟩]))
    (by decide)

/-- C4 counterexample: a deletion error on one file does abort the deletion
of the remaining files. With two cached images `a.png`, `b.png` and the
unlink of `a.png` failing, `clear_cache` leaves both files in place —
including `b.png`, whose own deletion would have succeeded. -/
theorem C4_abort_counterexample :
    (clear_cache (fun f => f == "a.png") ⟨["a.png", "b.png"], [], 0⟩).cacheFiles
        = ["a.png", "b.png"]
    ∧ (fun f => f == "a.png") "b.png" = false := by
  decide

/-- C4 amended: `clear_cache` attempts to delete every `*.png` file in the
cache directory in directory order, but the `try/except` wraps the whole
loop, so the first failing deletion aborts the remaining ones (logged
once); when no deletion fails, the cache directory afterwards contains
zero image files. -/
theorem C4_clear_cache_no_failure (unlinkFails : String → Bool) (st : FavState)
    (h : ∀ f ∈ st.cacheFiles,
      fnmatchStar "*.png".data f.data = true → unlinkFails f = false) :
    (clear_cache unlinkFails st).cacheFiles.filter
      (fun f => fnmatchStar "*.png".data f.data) = [] := by
  have hdel : deletedByClear unlinkFails
        (st.cacheFiles.filter (fun f => fnmatchStar "*.png".data f.data))
      = st.cacheFiles.filter (fun f => fnmatchStar "*.png".data f.data) :=
    deletedByClear_eq_self
      (fun f hf => h f (List.mem_filter.1 hf).1 (List.mem_filter.1 hf).2)
  simp only [clear_cache]
  rw [hdel, List.filter_filter]
  rw [List.filter_eq_nil_iff]
  intro a ha
  by_cases hp : fnmatchStar "*.png".data a.data = true
  · have hmem : a ∈ st.cacheFiles.filter (fun f => fnmatchStar "*.png".data f.data) :=
      List.mem_filter.2 ⟨ha, hp⟩
    simp [hp, hmem]
  · simp [hp]

/-- C4 witness: with no failing deletion, a cache holding one image and one
non-image file ends with zero image files. -/
theorem C4_clear_cache_no_failure_witness :
    (clear_cache (fun _ => false) ⟨["a.png", "b.txt"], [], 0⟩).cacheFiles.filter
      (fun f => fnmatchStar "*.png".data f.data) = [] :=
  C4_clear_cache_no_failure (fun _ => false) ⟨["a.png", "b.txt"], [], 0⟩ (by decide)

/-- C10: `clear_cache` removes only files matching `*.png` inside the cache
directory: the files of the cache directory not matching `*.png` survive
unchanged (same ones, same order), and files outside the cache directory
are untouched — whatever deletions fail. -/
theorem C10_clear_cache_only_png (unlinkFails : String → Bool) (st : FavState) :
    ((clear_cache unlinkFails st).cacheFiles.filter
        (fun f => !fnmatchStar "*.png".data f.data)
      = st.cacheFiles.filter (fun f => !fnmatchStar "*.png".data f.data))
    ∧ (clear_cache unlinkFails st).otherFiles = st.otherFiles := by
  constructor
  · simp only [clear_cache]
    rw [List.filter_filter]
    apply List.filter_congr
    intro x hx
    by_cases hp : fnmatchStar "*.png".data x.data = true
    · simp [hp]
    · have hxd : x ∉ deletedByClear unlinkFails
          (st.cacheFiles.filter (fun f => fnmatchStar "*.png".data f.data)) := by
        intro hmem
        exact hp (List.mem_filter.1 (mem_deletedByClear hmem)).2
      simp [hp, hxd]
  · rfl

/-- C5: over an absolute profile root (as the platform-derived roots are),
profile location returns `<root>/<dir>/places.sqlite` for the first
directory entry matching the patterns in priority order — the double join
`Path(path, release_folder, ...)` collapses because the glob result is
itself absolute — and when no pattern matches anything it fails with a
`FileNotFoundError` carrying the searched root path. Directory entry names
are, as the filesystem guarantees, nonempty and relative. -/
theorem C5_find_database (root : String) (entries : List String)
    (hroot : root.data.headD ' ' = '/')
    (hentries : ∀ e ∈ entries, e.data ≠ [] ∧ e.data.headD ' ' ≠ '/') :
    (∀ e, firstMatchingProfile entries = some e →
        find_database root entries = .ok (root ++ "/" ++ e ++ "/places.sqlite"))
    ∧ (firstMatchingProfile entries = none →
        find_database root entries
          = .error ("No Firefox/Zen profile found in " ++ root)) := by
  have hrootne : root.data ≠ [] := by
    intro hc
    rw [hc] at hroot
    simp at hroot
  constructor
  · intro e he
    have hemem : e ∈ entries := by
      obtain ⟨pat, hpat, hfind⟩ := List.exists_of_findSome?_eq_some he
      exact List.mem_of_find?_eq_some hfind
    obtain ⟨hene, hehead⟩ := hentries e hemem
    have j1 : pathJoin root e = root ++ "/" ++ e := pathJoin_rel hrootne hehead
    obtain ⟨c, tl, hct⟩ : ∃ c tl, root.data = c :: tl := by
      cases hd : root.data with
      | nil => exact absurd hd hrootne
      | cons c tl => exact ⟨c, tl, rfl⟩
    have hc : c = '/' := by
      rw [hct] at hroot
      simpa using hroot
    have habs : (root ++ "/" ++ e).data.headD ' ' = '/' := by
      rw [String.data_append, String.data_append, hct, hc]
      simp
    have j2 : pathJoin root (root ++ "/" ++ e) = root ++ "/" ++ e := pathJoin_abs habs
    have hne2 : (root ++ "/" ++ e).data ≠ [] := by
      rw [String.data_append, String.data_append, hct]
      simp
    have hps : ("places.sqlite" : String).data.headD ' ' ≠ '/' := by decide
    have j3 : pathJoin (root ++ "/" ++ e) "places.sqlite"
        = root ++ "/" ++ e ++ "/" ++ "places.sqlite" := pathJoin_rel hne2 hps
    have hlit : ("/" ++ "places.sqlite" : String) = "/places.sqlite" := by decide
    unfold find_database
    rw [he]
    show Except.ok (pathJoin (pathJoin root (pathJoin root e)) "places.sqlite")
        = Except.ok (root ++ "/" ++ e ++ "/places.sqlite")
    rw [j1, j2, j3, String.append_assoc, hlit]
  · intro hnone
    unfold find_database
    rw [hnone]

/-- C5 witness: the spec's concrete scenario — a root containing only
`foo.default-release` resolves to `<root>/foo.default-release/places.sqlite`. -/
theorem C5_find_database_witness :
    find_database "/profiles" ["foo.default-release"]
      = .ok ("/profiles" ++ "/" ++ "foo.default-release" ++ "/places.sqlite") :=
  (C5_find_database "/profiles" ["foo.default-release"] (by decide) (by decide)).1
    "foo.default-release" (by decide)

/-- C7: `get_favicon_path` is idempotent — after any call that returns a
path (cache hit or successful download-and-write), a second call with the
same URL returns the same path and leaves the state exactly as it was: no
new network request (the counter is unchanged, whatever the second call's
network would answer — even fully unreachable) and no file write, because
the cached file is found and returned immediately. -/
theorem C7_favicon_idempotent (env : FavEnv) (st st1 : FavState) (url p : String)
    (h : get_favicon_path env st url = (some p, st1)) :
    ∀ env2 : FavEnv, get_favicon_path env2 st1 url = (some p, st1) := by
  intro env2
  by_cases hd : get_domain url = ""
  · simp [get_favicon_path, hd] at h
  · by_cases hmem : (sanitize_filename (get_domain url) ++ ".png") ∈ st.cacheFiles
    · have hval : (some (cacheDirPath ++ "/" ++ (sanitize_filename (get_domain url) ++ ".png")),
          st) = (some p, st1) := by
        rw [← h]
        simp [get_favicon_path, hd, hmem]
      have hp : cacheDirPath ++ "/" ++ (sanitize_filename (get_domain url) ++ ".png") = p :=
        Option.some.inj (congrArg Prod.fst hval)
      have hst : st = st1 := congrArg Prod.snd hval
      subst hst
      simp [get_favicon_path, hd, hmem, hp]
    · cases hnet : env.net (get_domain url) with
      | none =>
          simp [get_favicon_path, hd, hmem, hnet] at h
      | some bytes =>
          by_cases hw : env.writeFails (sanitize_filename (get_domain url) ++ ".png") = true
          · simp [get_favicon_path, hd, hmem, hnet, hw] at h
          · have hval : (some (cacheDirPath ++ "/" ++ (sanitize_filename (get_domain url) ++ ".png")),
                ({ st with
                    cacheFiles := (sanitize_filename (get_domain url) ++ ".png") :: st.cacheFiles,
                    netCalls := st.netCalls + 1 } : FavState)) = (some p, st1) := by
              rw [← h]
              simp [get_favicon_path, hd, hmem, hnet, hw]
            have hp : cacheDirPath ++ "/" ++ (sanitize_filename (get_domain url) ++ ".png") = p :=
              Option.some.inj (congrArg Prod.fst hval)
            have hst : ({ st with
                cacheFiles := (sanitize_filename (get_domain url) ++ ".png") :: st.cacheFiles,
                netCalls := st.netCalls + 1 } : FavState) = st1 :=
              congrArg Prod.snd hval
            have hmem1 : (sanitize_filename (get_domain url) ++ ".png") ∈ st1.cacheFiles := by
              rw [← hst]
              exact List.mem_cons_self _ _
            simp [get_favicon_path, hd, hmem1, hp]

/-- C7 witness: a first resolution of `https://example.com/page` downloads
and caches `example.com.png`; the repeat call — against a dead network and
a failing filesystem — returns the same path with the state untouched. -/
theorem C7_favicon_idempotent_witness :
    get_favicon_path ⟨fun _ => none, fun _ => true⟩ ⟨["example.com.png"], [], 1⟩
        "https://example.com/page"
      = (some "favicons/example.com.png", ⟨["example.com.png"], [], 1⟩) :=
  C7_favicon_idempotent
    ⟨fun d => if d = "example.com" then some "imgbytes" else none, fun _ => false⟩
    ⟨[], [], 0⟩ ⟨["example.com.png"], [], 1⟩ "https://example.com/page"
    "favicons/example.com.png" (by decide) ⟨fun _ => none, fun _ => true⟩
